import Mathlib

/-!
Verification development for the redhorizon-bot news pipeline
(`src/feeds.py`, `src/tasks.py`, `src/formatter.py`).

The Python sources are shallowly embedded below.  Conventions used throughout:

* Python `str` values are Lean `String`; Python slicing `s[:n]` is character
  based, mirrored by `strTake`.
* `datetime` values are modelled as `Int` seconds (UTC); `timedelta(hours=h)`
  is `h * 3600`, `timedelta(minutes=m)` is `m * 60`.  Only differences and
  comparisons of datetimes occur in the embedded code, so an absolute integer
  timeline is faithful.
* Python `float` relevance scores are sums of the literals 1.6, 0.9, 1.2 and
  small integers; they are modelled exactly as `Int` values scaled by 10
  (16, 9, 12, weights times 10, thresholds times 10), which preserves every
  comparison the code performs on them.
* `feedparser` network results are the input data (the external feed-source
  collaborator); the Telegram/Zapier senders are boolean oracles (the external
  publisher collaborator); the JSON seen-store is an explicit list of keys.
* Python `sorted(key=k, reverse=True)` (stable Timsort) is modelled by the
  stable insertion sort `sortByStable` with the corresponding total boolean
  preorder; a stable sort of a list under a total preorder is unique, so the
  two agree element for element.
-/

namespace RedHorizon

/-! ### Character-list string utilities (Python `str` primitives) -/

/-- Python character slicing `s[:n]`. -/
def strTake (s : String) (n : Nat) : String := String.mk (s.toList.take n)

/-- Python character slicing `s[n:]`. -/
def strDrop (s : String) (n : Nat) : String := String.mk (s.toList.drop n)

/-- Python `s.lower()` (ASCII range, which is all the pipeline compares). -/
def lowerStr (s : String) : String := String.mk (s.toList.map Char.toLower)

/-- Python `p in s` helper on character lists: does `needle` occur in `hay`? -/
def subAux (needle : List Char) : List Char → Bool
  | [] => needle.isPrefixOf []
  | c :: rest => needle.isPrefixOf (c :: rest) || subAux needle rest

/-- Python substring test `needle in hay`. -/
def strIn (needle hay : String) : Bool := subAux needle.toList hay.toList

/-- Does `s` start with `p` (character-wise)? -/
def startsWithL (s p : String) : Bool := p.toList.isPrefixOf s.toList

/-- Does `s` end with `p` (character-wise)? -/
def endsWithL (s p : String) : Bool := p.toList.reverse.isPrefixOf s.toList.reverse

/-- Python `s.strip()`: drop leading and trailing whitespace. -/
def trimStr (s : String) : String :=
  String.mk (((s.toList.dropWhile Char.isWhitespace).reverse.dropWhile Char.isWhitespace).reverse)

/-- Source `go pat repl l skip`: one-pass worker for Python `str.replace` (all,
non-overlapping, left to right); `skip` is the number of already-matched
characters still to drop. -/
def replaceGo (pat repl : List Char) : List Char → Nat → List Char
  | [], _ => []
  | _ :: rest, Nat.succ k => replaceGo pat repl rest k
  | c :: rest, 0 =>
    if pat ≠ [] && pat.isPrefixOf (c :: rest) then
      repl ++ replaceGo pat repl rest (pat.length - 1)
    else
      c :: replaceGo pat repl rest 0

/-- Python `s.replace(pat, repl)` (every non-overlapping occurrence). -/
def replaceAll (s pat repl : String) : String :=
  String.mk (replaceGo pat.toList repl.toList s.toList 0)

/-- Source `" ".join`-style list joining, Python `sep.join(parts)`. -/
def joinSep (sep : String) : List String → String
  | [] => ""
  | [x] => x
  | x :: y :: xs => x ++ sep ++ joinSep sep (y :: xs)

/-- Worker for whitespace-run collapsing: `prev` records whether the previous
kept character was (collapsed) whitespace. -/
def collapseWsGo : List Char → Bool → List Char
  | [], _ => []
  | c :: rest, prev =>
    if c.isWhitespace then
      if prev then collapseWsGo rest true else ' ' :: collapseWsGo rest true
    else c :: collapseWsGo rest false

/-- Python `re.sub(r"\s+", " ", s)`: collapse each whitespace run to one blank. -/
def collapseWs (s : String) : String := String.mk (collapseWsGo s.toList false)

/-- Worker splitting a character list into maximal `sep`-free words;
`acc` holds the current word reversed.  Empty tokens are dropped, so this is
`split` followed by discarding empties. -/
def splitDropGo (sep : Char) : List Char → List Char → List String
  | [], acc => if acc.isEmpty then [] else [String.mk acc.reverse]
  | c :: rest, acc =>
    if c = sep then
      if acc.isEmpty then splitDropGo sep rest []
      else String.mk acc.reverse :: splitDropGo sep rest []
    else splitDropGo sep rest (c :: acc)

/-- Worker splitting a character list into maximal blank-free words;
`acc` holds the current word reversed. -/
def wordsGo (l : List Char) (acc : List Char) : List String := splitDropGo ' ' l acc

/-! ### URL parsing (`urllib.parse.urlparse` and the hand-rolled regexes),
restricted to the URL shapes this pipeline handles: absolute
`scheme://netloc/path?query#fragment` URLs, protocol-relative `//…` URLs and
scheme-less strings. -/

/-- Valid `urlparse` scheme character after the leading letter. -/
def schemeChar (c : Char) : Bool := c.isAlpha || c.isDigit || c = '+' || c = '-' || c = '.'

/-- The characters after the scheme marker, when the URL has a
`scheme://` or `//` prefix (the cases in which `urlparse` produces a netloc). -/
def afterScheme (l : List Char) : Option (List Char) :=
  if l.take 2 = ['/', '/'] then some (l.drop 2)
  else
    let sch := l.takeWhile schemeChar
    match l.drop sch.length with
    | ':' :: r =>
      match sch with
      | c :: _ => if c.isAlpha && r.take 2 = ['/', '/'] then some (r.drop 2) else none
      | [] => none
    | _ => none

/-- Source `urlparse(url).netloc` (case preserved, as in Python). -/
def netloc (url : String) : String :=
  match afterScheme url.toList with
  | some r => String.mk (r.takeWhile (fun c => c ≠ '/' && c ≠ '?' && c ≠ '#'))
  | none => ""

/-- Source `urlparse(url).path` for the same URL shapes. -/
def urlpath (url : String) : String :=
  let l := url.toList
  let rest :=
    match afterScheme l with
    | some r => r.dropWhile (fun c => c ≠ '/' && c ≠ '?' && c ≠ '#')
    | none =>
      -- no netloc: strip a plain `scheme:` prefix if present, else whole string
      let sch := l.takeWhile schemeChar
      match l.drop sch.length with
      | ':' :: r =>
        match sch with
        | c :: _ => if c.isAlpha then r else l
        | [] => l
      | _ => l
  String.mk (rest.takeWhile (fun c => c ≠ '?' && c ≠ '#'))

/-- Backtracking match of `DOMAIN_RE = https?://(www\.)?([^/]+)` at the start
of `url`, returning group 2 (case sensitive scheme, as in the source regex). -/
def domainMatch (url : String) : Option String :=
  let rest :=
    if startsWithL url "https://" then some (strDrop url 8)
    else if startsWithL url "http://" then some (strDrop url 7)
    else none
  match rest with
  | none => none
  | some r =>
    let rNoWww := if startsWithL r "www." then strDrop r 4 else r
    let hWww := String.mk (rNoWww.toList.takeWhile (fun c => c ≠ '/'))
    if hWww ≠ "" then some hWww
    else
      let hPlain := String.mk (r.toList.takeWhile (fun c => c ≠ '/'))
      if hPlain ≠ "" then some hPlain else none

/-! ### `src/feeds.py` — helpers -/

/-- Source `feeds._host`: `urlparse(url).netloc.lower()` (note: no `www.` stripping). -/
def feeds_host (url : String) : String := lowerStr (netloc url)

/-- Source `feeds._slug`: lower-cased path, slash runs collapsed, stripped of slashes,
last segment.  Collapsing `/+` to `/`, stripping `/` and taking the last
`rsplit("/", 1)` piece is exactly the last nonempty `/`-separated segment. -/
def slug (url : String) : String :=
  (splitDropGo '/' (lowerStr (urlpath url)).toList []).getLast?.getD ""

/-- Boilerplate words removed by `feeds._title_key`. -/
def BOILER : List String :=
  ["spacex", "nasa", "esa", "news", "update", "launch", "rocket", "starship", "falcon", "mars"]

/-- Tokens of `re.sub(r"[^a-z0-9 ]+", " ", t.lower())` after whitespace
collapsing: maximal runs of `[a-z0-9]`. -/
def alnumTokens (t : String) : List String :=
  wordsGo ((lowerStr t).toList.map
    (fun c => if ('a' ≤ c && c ≤ 'z') || c.isDigit || c = ' ' then c else ' ')) []

/-- Source `feeds._title_key`: normalized title with boilerplate words removed.
The `\b(...)\b` regex removes exactly the whole tokens equal to a boilerplate
word, since after the first substitution the string is blank-separated
`[a-z0-9]` runs. -/
def title_key (t : String) : String :=
  joinSep " " ((alnumTokens t).filter (fun w => !(BOILER.contains w)))

/-- Source `tasks._norm_title` (same normalization, no boilerplate removal). -/
def norm_title (t : String) : String := joinSep " " (alnumTokens t)

/-- Source `feeds._domain`: `DOMAIN_RE` group 2 lower-cased, `""` when unmatched. -/
def domain_of (url : String) : String := lowerStr ((domainMatch url).getD "")

/-- Source `feeds._entry_time` / the `published or updated` fallback (`struct_time`
values are always truthy, so Python `or` is `Option.orElse`). -/
def entry_time (published_parsed updated_parsed : Option Int) : Option Int :=
  published_parsed.orElse (fun _ => updated_parsed)

/-! ### `src/feeds.py` — HTML-to-text cleaning (used by the image fetcher) -/

/-- Worker for `TAG_RE = <[^>]+>` substitution: `pending` holds (reversed) the
characters of a candidate tag opened by `<`; on `>` the candidate matches iff
it contains at least one body character. -/
def stripTagsGo : List Char → List Char → List Char
  | [], pending => pending.reverse
  | c :: rest, pending =>
    match pending with
    | [] => if c = '<' then stripTagsGo rest ['<'] else c :: stripTagsGo rest []
    | _ :: _ =>
      if c = '>' then
        if pending.length ≥ 2 then ' ' :: stripTagsGo rest []
        else pending.reverse ++ '>' :: stripTagsGo rest []
      else stripTagsGo rest (c :: pending)

/-- Source `re.sub(TAG_RE, " ", s)`: each `<[^>]+>` tag becomes one blank. -/
def stripTags (s : String) : String := String.mk (stripTagsGo s.toList [])

/-- Models `html.unescape` restricted to the five entities `html.escape`
produces; the Python version also handles the full HTML5 entity table,
which no claim exercises. -/
def html_unescape (s : String) : String :=
  replaceAll (replaceAll (replaceAll (replaceAll (replaceAll s
    "&lt;" "<") "&gt;" ">") "&quot;" "\"") "&#x27;" "\x27") "&amp;" "&"

/-- Source `feeds.clean_html_to_text` (default limit 320). -/
def clean_html_to_text (s : String) (limit : Nat) : String :=
  if s = "" then ""
  else
    let s1 := stripTags s
    let s2 := html_unescape s1
    let s3 := trimStr (collapseWs s2)
    if s3.length > limit then strTake s3 limit ++ "…" else s3

/-! ### `src/feeds.py` — source weights, keyword lists, scoring -/

/-- Source `feeds.SOURCE_WEIGHTS` (unscaled, as written in the source dict). -/
def SOURCE_WEIGHTS : List (String × Int) :=
  [("nasa.gov", 5), ("science.nasa.gov", 5), ("mars.nasa.gov", 5),
   ("spacex.com", 5), ("esa.int", 5), ("jaxa.jp", 5), ("blueorigin.com", 4),
   ("spacenews.com", 5), ("space.com", 4), ("spaceflightnow.com", 4),
   ("nasaspaceflight.com", 4), ("everydayastronaut.com", 4),
   ("universetoday.com", 4), ("phys.org", 3),
   ("reddit.com", 1), ("old.reddit.com", 1), ("www.reddit.com", 1)]

/-- Source `SOURCE_WEIGHTS.get(host, 2)`. -/
def sourceWeight (host : String) : Int :=
  ((SOURCE_WEIGHTS.find? (fun p => p.1 == host)).map Prod.snd).getD 2

/-- Source `feeds.KEYWORDS`. -/
def KEYWORDS : List String :=
  ["spacex", "starship", "starbase", "boca chica", "falcon 9", "falcon9", "falcon-9",
   "falcon heavy", "super heavy", "booster", "mechazilla", "chopsticks", "olm", "olp",
   "raptor", "merlin", "dragon", "crew dragon", "cargo dragon",
   "launch", "liftoff", "static fire", "hotfire", "wdr", "wet dress", "stack", "destack",
   "rollout", "rollback", "countdown", "premiere", "live", "pad", "orbital",
   "mars", "terraform", "habitat", "isru", "red planet", "jezero", "gale", "perseverance", "curiosity"]

/-- Source `feeds.NEGATIVE_HINTS`. -/
def NEGATIVE_HINTS : List String :=
  ["opinion", "editorial", "sponsored", "newsletter", "podcast", "weekly", "roundup", "recap",
   "jobs", "hiring", "appointment", "promoted", "funding round", "earnings", "stock"]

/-- Source `feeds.relevance_score`, scaled by 10: +16 per keyword in the title,
+9 per keyword in the summary, −12 per negative hint anywhere
(the source adds floats 1.6 / 0.9 / 1.2). -/
def relevance_score (title summary : String) : Int :=
  let t := lowerStr title
  let s := lowerStr summary
  let pos := KEYWORDS.foldl
    (fun acc kw => acc + (if strIn kw t then 16 else 0) + (if strIn kw s then 9 else 0)) 0
  NEGATIVE_HINTS.foldl
    (fun acc neg => acc - (if strIn neg t || strIn neg s then 12 else 0)) pos

/-- Modelled from the spec: `score_article` is called by `fetch_rss_news`
(feeds.py line 216) but is not defined in any file under `src/`; per spec
section 4.2 the relevance scorer does keyword / negative-hint matching with
title matches weighted above body matches, which is exactly the
`relevance_score` defined in `feeds.py`, so the missing symbol is modelled
by it. -/
def score_article (title summary : String) : Int := relevance_score title summary

/-! ### `src/feeds.py` — `fetch_rss_news` -/

/-- A raw `feedparser` entry (a record of the external feed-source collaborator):
optional `published_parsed` / `updated_parsed` times, plus the best-effort
image already extracted by `feeds._entry_image` (a pure field lookup / regex
scan over collaborator data that no claim touches, carried here as a field). -/
structure Entry where
  title : String
  link : String
  summary : String
  published_parsed : Option Int
  updated_parsed : Option Int
  image : String
deriving DecidableEq

/-- One parsed feed: its URL, its optional `feed.title`, and its entries. -/
structure Feed where
  url : String
  feed_title : Option String
  entries : List Entry
deriving DecidableEq

/-- The dict appended to `articles` by `fetch_rss_news`. -/
structure Article where
  title : String
  link : String
  summary : String
  published : Int
  source : String
  source_host : String
  image : String
  score : Int
  is_breaking : Bool
  is_super_breaking : Bool
deriving DecidableEq

/-- The per-entry body of the `fetch_rss_news` loop (feeds.py lines 201-242),
up to but excluding the duplicate-key check: `none` when the entry is skipped
for lacking a timestamp or being older than 48 hours. -/
def processEntry (now : Int) (is_terraforming : Bool) (src_title : String)
    (feed_url : String) (e : Entry) : Option Article :=
  match entry_time e.published_parsed e.updated_parsed with
  | none => none
  | some tdt =>
    if now - tdt > 48 * 3600 then none
    else
      let title := trimStr e.title
      let link := trimStr e.link
      let summary := e.summary
      let source_host := if feeds_host link ≠ "" then feeds_host link else feeds_host feed_url
      let source_name := if src_title ≠ "" then src_title else source_host
      let s0 := score_article title summary
      let s1 := if is_terraforming &&
          (["terraform", "habitability", "colonization", "isru"].any
            (fun k => strIn k (lowerStr (title ++ summary)))) then s0 + 30 else s0
      let s := s1 + 10 * sourceWeight source_host
      some { title := title, link := link, summary := summary, published := tdt,
             source := source_name, source_host := source_host, image := e.image,
             score := s,
             is_breaking := decide (now - tdt ≤ 15 * 60),
             is_super_breaking := decide (now - tdt ≤ 5 * 60) }

/-- The composite near-duplicate key `(source_host, _title_key(title), _slug(link))`. -/
def dkey (a : Article) : String × String × String :=
  (a.source_host, title_key a.title, slug a.link)

/-- Worker for the `seen_keys` duplicate filter: keeps an article iff its
composite key has not been seen before. -/
def dedupeGo (ks : List (String × String × String)) : List Article → List Article
  | [] => []
  | a :: rest =>
    if dkey a ∈ ks then dedupeGo ks rest
    else a :: dedupeGo (dkey a :: ks) rest

/-- The deduplication step of `fetch_rss_news` (feeds.py lines 224-228),
applied to the stream of processed articles in feed order. -/
def dedupe (pool : List Article) : List Article := dedupeGo [] pool

/-- Stable insertion: place `x` before the first element `y` with `le x y`. -/
def insSorted (le : α → α → Bool) (x : α) : List α → List α
  | [] => [x]
  | y :: ys => if le x y then x :: y :: ys else y :: insSorted le x ys

/-- Stable sort with respect to the boolean preorder `le`; for a total `le`
this is the unique stable ordering, hence agrees with Python `sorted`. -/
def sortByStable (le : α → α → Bool) : List α → List α
  | [] => []
  | x :: xs => insSorted le x (sortByStable le xs)

/-- Source `sorted(key=lambda x: (x["score"], x["published"]), reverse=True)`:
`le a b` iff `a` may come before `b` in the descending order. -/
def articleLe (a b : Article) : Bool :=
  b.score < a.score || (b.score == a.score && b.published ≤ a.published)

/-- Source `feeds.fetch_rss_news` over the already-fetched feeds (per-feed fetch
exceptions leave a feed contributing nothing, i.e. it is simply absent from
the input list). -/
def fetch_rss_news (now : Int) (is_terraforming : Bool) (feeds : List Feed) : List Article :=
  let arts := (feeds.map (fun f =>
    (f.entries.take 50).filterMap
      (processEntry now is_terraforming (f.feed_title.getD (feeds_host f.url)) f.url))).flatten
  sortByStable articleLe (dedupe arts)

/-! ### `src/feeds.py` — `fetch_images` -/

/-- A raw entry of an image feed; `media_content_url` is `mc[0].get("url")`
when `media_content` is a nonempty list (Python truthiness of the url string
is checked separately, as in the source). -/
structure ImgEntry where
  title : String
  link : String
  summary : String
  description : String
  published_parsed : Option Int
  updated_parsed : Option Int
  media_content_url : Option String
deriving DecidableEq

/-- One parsed image feed: its URL and entries. -/
structure ImgFeed where
  url : String
  entries : List ImgEntry
deriving DecidableEq

/-- The dict appended to `imgs` by `fetch_images`. -/
structure ImageItem where
  title : String
  url : String
  source_link : String
  source_name : String
  description : String
  published : Int
deriving DecidableEq

/-- The `.jpg` / `.jpeg` / `.png` alternative matching at split point `i` of
the non-space run (case-insensitive), returning the matched extension length. -/
def extAt (run : List Char) (i : Nat) : Option Nat :=
  let rest := String.mk ((run.drop i).map Char.toLower)
  if startsWithL rest ".jpg" then some 4
  else if startsWithL rest ".jpeg" then some 5
  else if startsWithL rest ".png" then some 4
  else none

/-- Greedy backtracking of `\S+\.(?:jpg|jpeg|png)`: the rightmost split point
`i ≥ 1` whose remainder starts with an extension; returns the total matched
length inside the run. -/
def bestSplit (run : List Char) : Option Nat :=
  ((List.range (run.length + 1)).reverse).findSome?
    (fun i => if 1 ≤ i then (extAt run i).map (fun e => i + e) else none)

/-- Scheme prefix length of `https?://` at the head of `l`, case-insensitive
(the regex is compiled with `re.I`). -/
def imgScheme (l : List Char) : Option Nat :=
  let low := String.mk ((l.take 8).map Char.toLower)
  if startsWithL low "https://" then some 8
  else if startsWithL "https://" low then none    -- shorter than 8 chars, cannot match
  else if startsWithL low "http://" then some 7
  else none

/-- Scanner for `re.search on the pattern (https?://\S+\.(?:jpg|jpeg|png)) over raw, with re.I`:
leftmost start position, then greedy extension match inside the non-space run. -/
def findImgGo : List Char → Option String
  | [] => none
  | c :: rest =>
    match imgScheme (c :: rest) with
    | some k =>
      let run := ((c :: rest).drop k).takeWhile (fun ch => !ch.isWhitespace)
      match bestSplit run with
      | some m => some (String.mk ((c :: rest).take (k + m)))
      | none => findImgGo rest
    | none => findImgGo rest

/-- First embedded image URL in `raw`, per the source regex. -/
def findImgUrl (raw : String) : Option String := findImgGo raw.toList

/-- The per-entry body of the `fetch_images` loop (feeds.py lines 275-295). -/
def processImgEntry (now : Int) (feed_url : String) (e : ImgEntry) : Option ImageItem :=
  match entry_time e.published_parsed e.updated_parsed with
  | none => none
  | some t =>
    if now - t ≤ 96 * 3600 then
      let raw := if e.summary ≠ "" then e.summary else e.description
      let summary := clean_html_to_text raw 260
      let img_url :=
        match e.media_content_url with
        | some u => if u ≠ "" then some u else findImgUrl raw
        | none => findImgUrl raw
      match img_url with
      | none => none
      | some u =>
        some { title := e.title, url := u, source_link := e.link,
               source_name := if domain_of e.link ≠ "" then domain_of e.link else domain_of feed_url,
               description := summary, published := t }
    else none

/-- Source `sorted(key=lambda x: x["published"], reverse=True)` for image items. -/
def imageLe (a b : ImageItem) : Bool := b.published ≤ a.published

/-- Source `feeds.fetch_images` over the already-fetched image feeds. -/
def fetch_images (now : Int) (feeds : List ImgFeed) : List ImageItem :=
  sortByStable imageLe
    ((feeds.map (fun f => (f.entries.take 20).filterMap (processImgEntry now f.url))).flatten)

/-! ### `src/tasks.py` — shared helpers and constants -/

/-- Source `tasks.AUTHORITIES` lookup with default 0. -/
def AUTHORITIES : List (String × Int) :=
  [("nasa.gov", 2), ("esa.int", 2), ("blueorigin.com", 2), ("spacex.com", 2),
   ("spacenews.com", 1), ("spaceflightnow.com", 1), ("nasaspaceflight.com", 1), ("space.com", 1),
   ("everydayastronaut.com", 1), ("universetoday.com", 1), ("planetary.org", 1)]

/-- Source `AUTHORITIES.get(host, 0)`. -/
def authorityOf (host : String) : Int :=
  ((AUTHORITIES.find? (fun p => p.1 == host)).map Prod.snd).getD 0

/-- Source `tasks.TREND_KEYWORDS`. -/
def TREND_KEYWORDS : List String :=
  ["starship", "falcon", "static fire", "scrub", "net", "launch", "rollout", "raptor",
   "booster", "stack", "hotfire", "liftoff", "payload", "stage 0", "starbase"]

/-- Source `tasks._host`: netloc lower-cased with every `"www."` occurrence removed
(`str.replace` replaces all occurrences); also `tasks._host_of` inside
`run_daily_image`, which has the same body. -/
def tasks_host (url : String) : String := replaceAll (lowerStr (netloc url)) "www." ""

/-- The seen-store / cache dict write `d[key] = True`: a set insertion. -/
def insertSeen (seen : List String) (key : String) : List String :=
  if key ∈ seen then seen else seen ++ [key]

/-- Modelled from the spec: `fetch_nitter_posts` is imported by `tasks.py`
from `src.feeds` but not defined in any file under `src/` (`feeds.py` only
defines `fetch_nitter_signals`); per spec sections 2 and 4, Nitter posts are
digest-only recency signals, so the collaborator is modelled as the list of
posts (text and link) it returned for the requested window. -/
structure NitterPost where
  text : String
  link : String
deriving DecidableEq

/-! ### `src/tasks.py` — `run_breaking_news` -/

/-- Distinct nonempty hosts that published a title normalizing to `key`
within the last 60 minutes (the similarity clusters of lines 201-206):
`len([h for h in clusters.get(key, set()) if h])`. -/
def consensusOf (now : Int) (items : List Article) (key : String) : Nat :=
  (((items.filter (fun a => now - a.published ≤ 60 * 60 && norm_title a.title == key)).map
      (fun a => a.source_host)).dedup.filter (fun h => h ≠ "")).length

/-- Nitter momentum (lines 209-215): +2 when at least two recent posts echo a
trend keyword, else 0 (unscaled; it is scaled by 10 where added to scores). -/
def momentumOf (posts : List NitterPost) : Int :=
  let momentum_hits :=
    (posts.filter (fun p => TREND_KEYWORDS.any (fun k => strIn k (lowerStr p.text)))).length
  if momentum_hits ≥ 2 then 2 else 0

/-- A `(score, consensus, authority, article)` tuple of the `scored` list. -/
structure ScoredArticle where
  score : Int
  consensus : Nat
  authority : Int
  art : Article
deriving DecidableEq

/-- Source `sorted(key=lambda t: (t[0], t[3]["published"]), reverse=True)`. -/
def scoredLe (a b : ScoredArticle) : Bool :=
  b.score < a.score || (b.score == a.score && b.art.published ≤ a.art.published)

/-- The posting loop of `run_breaking_news` (lines 229-262).  `pubImg a` is
the outcome of `send_telegram_image` for `a`, `pubMsg a` the outcome of the
fallback `send_telegram_message` (the publisher collaborator); the formatted
Markdown body they are handed does not influence the control flow.  Returns
`(posted, seen, emitted)` where `emitted` lists the successfully published
articles in posting order. -/
def breakingLoop (pubImg pubMsg : Article → Bool) (momentum : Int) :
    List ScoredArticle → Nat → List String → List Article → Nat × List String × List Article
  | [], posted, seen, out => (posted, seen, out)
  | sa :: rest, posted, seen, out =>
    if posted ≥ 2 then (posted, seen, out)
    else if sa.art.link ∈ seen then breakingLoop pubImg pubMsg momentum rest posted seen out
    else if sa.score < 80 then breakingLoop pubImg pubMsg momentum rest posted seen out
    else if !(sa.consensus ≥ 2 || (sa.authority ≥ 1 && momentum ≥ 2)) then
      breakingLoop pubImg pubMsg momentum rest posted seen out
    else
      let ok := (sa.art.image ≠ "" && pubImg sa.art) || pubMsg sa.art
      if ok then
        breakingLoop pubImg pubMsg momentum rest (posted + 1)
          (insertSeen seen sa.art.link) (out ++ [sa.art])
      else breakingLoop pubImg pubMsg momentum rest posted seen out

/-- Source `tasks.run_breaking_news`: `pool` is the `fetch_rss_news()` result,
`posts` the `fetch_nitter_posts(minutes=30)` result, `seen` the loaded
seen-store.  Returns `(status, seen_after, emitted)`. -/
def run_breaking_news (now : Int) (pool : List Article) (posts : List NitterPost)
    (seen : List String) (pubImg pubMsg : Article → Bool) :
    String × List String × List Article :=
  let items := (pool.take 120).filter (fun a => a.is_breaking)
  if items.isEmpty then ("no-post", seen, [])
  else
    let momentum := momentumOf posts
    let scored := items.map (fun a =>
      { score := a.score + 20 * Int.ofNat (consensusOf now items (norm_title a.title))
          + 10 * authorityOf a.source_host + 10 * momentum,
        consensus := consensusOf now items (norm_title a.title),
        authority := authorityOf a.source_host, art := a : ScoredArticle })
    let sortedScored := sortByStable scoredLe scored
    let res := breakingLoop pubImg pubMsg momentum sortedScored 0 seen []
    (if res.1 > 0 then "ok" else "no-post", res.2.1, res.2.2)

/-! ### `src/tasks.py` — `run_daily_digest` -/

/-- Source `_spacexy` (lines 293-295). -/
def spacexy (a : Article) : Bool :=
  let t := lowerStr (a.title ++ " " ++ a.summary)
  ["spacex", "starship", "falcon", "raptor", "starbase", "elon"].any (fun k => strIn k t)

/-- Is the item from the low-trust aggregator: `"reddit.com" in source_host`. -/
def isReddit (a : Article) : Bool := strIn "reddit.com" a.source_host

/-- One `_maybe_add` call guarded by the loop guard `len(final) >= limit: break`
check (lines 302-319): since `final` only grows, breaking out equals skipping
every remaining iteration, so the loop is a fold of this step. -/
def maybe_add (limit : Nat) (st : List Article × Nat) (it : Article) : List Article × Nat :=
  if st.1.length ≥ limit then st
  else if isReddit it then
    if st.2 ≥ 1 then st else (st.1 ++ [it], st.2 + 1)
  else (st.1 ++ [it], st.2)

/-- Fill: up to 3 SpaceX-partition items, then up to 5 total from the rest,
with the shared Reddit counter. -/
def buildFinal (spacexItems otherItems : List Article) : List Article × Nat :=
  otherItems.foldl (maybe_add 5) (spacexItems.foldl (maybe_add 3) ([], 0))

/-- Source `_within(items, hours)` (lines 287-288). -/
def within_hours (now : Int) (items : List Article) (hours : Int) : List Article :=
  items.filter (fun a => now - a.published ≤ hours * 3600)

/-- Steps 1-3 of the digest for a given fresh pool: partition, sort each part
by `(score, published)` descending, fill. -/
def digestFrom (fresh : List Article) : List Article :=
  let spacex_items := sortByStable articleLe (fresh.filter spacexy)
  let other_items := sortByStable articleLe (fresh.filter (fun a => !spacexy a))
  (buildFinal spacex_items other_items).1

/-- The selection logic of `run_daily_digest` (lines 285-336): 24-hour window
first, rebuilt once from the 72-hour window when fewer than 3 items result. -/
def digestSelection (now : Int) (pool : List Article) : List Article :=
  let all_items := pool.take 150
  let primary := digestFrom (within_hours now all_items 24)
  if primary.length < 3 then digestFrom (within_hours now all_items 72) else primary

/-- Source `tasks.run_daily_digest`: `pool` is the `fetch_rss_news()` result.
`sendOk` abstracts the outcomes of the `send_telegram_image` /
`send_telegram_message` / `send_to_zapier` calls of lines 361-372: the source
discards every one of those return values, so the rest of the run cannot
depend on them.  Returns `(status, seen_after)`. -/
def run_daily_digest (now : Int) (pool : List Article) (seen : List String)
    (sendOk : Bool) : String × List String :=
  let final := digestSelection now pool
  if final.isEmpty then ("no-post", seen)
  else ("ok", final.foldl (fun s a => insertSeen s a.link) seen)

/-! ### `src/tasks.py` — `run_daily_image` -/

/-- The pick of `run_daily_image` (lines 404-420): first unseen, uncached
image avoiding the previous host, else first unseen, uncached image. -/
def pickImage (imgs : List ImageItem) (seen cache : List String) (lastHost : String) :
    Option ImageItem :=
  match imgs.find? (fun im =>
      !(seen.contains im.url) && !(cache.contains im.url) &&
      !(tasks_host im.source_link ≠ "" && lastHost ≠ "" && tasks_host im.source_link == lastHost)) with
  | some im => some im
  | none => imgs.find? (fun im => !(seen.contains im.url) && !(cache.contains im.url))

/-- Source `tasks.run_daily_image`: `imgs` is the `fetch_images()` result, `seen`
the seen-store, `cacheUrls` the posted-URL cache keys in insertion order
(values are timestamps, never read) and `lastHost` the cached `_last_host`.
`pubImg im` is the `send_telegram_image` outcome for `im`.  Returns
`(status, seen_after, cache_after, lastHost_after)`. -/
def run_daily_image (imgs : List ImageItem) (seen cacheUrls : List String)
    (lastHost : String) (pubImg : ImageItem → Bool) :
    String × List String × List String × String :=
  match pickImage imgs seen cacheUrls lastHost with
  | none => ("no-post", seen, cacheUrls, lastHost)
  | some picked =>
    if pubImg picked then
      let seen1 := insertSeen seen picked.url
      let cache1 := cacheUrls ++ [picked.url]
      let cache2 := if cache1.length > 300 then cache1.drop (cache1.length - 300) else cache1
      ("ok", seen1, cache2, tasks_host picked.source_link)
    else ("fail", seen, cacheUrls, lastHost)

/-! ### `src/formatter.py` -/

def TG_MAX_TEXT : Nat := 3900
def TG_MAX_CAPTION : Nat := 1024

/-- Source `html.escape(s)` (quote=True): the five sequential replacements, `&`
first, are equivalent to this character map because no replacement string
contains a character replaced later. -/
def escChar (c : Char) : String :=
  if c = '&' then "&amp;"
  else if c = '<' then "&lt;"
  else if c = '>' then "&gt;"
  else if c.toNat = 34 then "&quot;"      -- the double-quote character
  else if c.toNat = 39 then "&#x27;"      -- the apostrophe character
  else String.mk [c]

/-- Source `html.escape`. -/
def html_escape (s : String) : String := String.mk ((s.toList.map (fun c => (escChar c).toList)).flatten)

/-- Source `formatter.clamp`: clip to `n` characters, the last one an ellipsis, when
the input is longer than `n`. -/
def clamp (s : String) (n : Nat) : String :=
  if s.length > n then strTake s (n - 1) ++ "…" else s

/-- Source `formatter.link`: an HTML anchor; empty text falls back to `"Open"`. -/
def link (text url : String) : String :=
  let t := html_escape (if text = "" then "Open" else text)
  let u := html_escape url
  "<a href=\"" ++ u ++ "\">" ++ t ++ "</a>"

/-- Source `formatter.build_hashtags`. -/
def build_hashtags (tags : List String) : String :=
  joinSep " " ((tags.filter (fun t => t ≠ "")).map (fun t => "#" ++ replaceAll t " " ""))

/-- Source `formatter.badge_for`: `DOMAIN_RE` group 2 lower-cased, `"source"` when
unmatched (the `.lower()` applies to the fallback too). -/
def badge_for (url : String) : String := lowerStr ((domainMatch url).getD "source")

/-- Source `formatter.kpi_line`. -/
def kpi_line (items : List String) : String := joinSep " · " (items.filter (fun i => i ≠ ""))

/-- The string `fmt_breaking` builds before clamping. -/
def fmt_breaking_raw (title url summary : String) (tags : List String) (source_hint : String) :
    String :=
  let src := if source_hint = "" then badge_for url else source_hint
  let header := "🚨 <b>BREAKING</b> — " ++ html_escape title
  let lines := [header] ++ (if summary = "" then [] else [summary])
    ++ [link "Read more" url, kpi_line [src], build_hashtags tags]
  joinSep "\n\n" lines

/-- Source `formatter.fmt_breaking` (defaults: `summary=""`, `tags=None`→`[]`,
`source_hint=""`). -/
def fmt_breaking (title url summary : String) (tags : List String) (source_hint : String) :
    String :=
  clamp (fmt_breaking_raw title url summary tags source_hint) TG_MAX_TEXT

/-- A digest item dict for `fmt_digest`; absent dict keys are the empty
string (Python `it.get(k) or ...` treats missing and empty alike). -/
structure DigestItem where
  title : String
  url : String
  source : String
  blurb : String
  time_utc : String
deriving DecidableEq

/-- The string `fmt_digest` builds before clamping. -/
def fmt_digest_raw (date_label : String) (items : List DigestItem) (tags : List String)
    (footer_x : String) : String :=
  let header := "🚀 <b>Red Horizon Daily Digest — " ++ html_escape date_label ++ "</b>"
  let blocks := items.map (fun it =>
    let title := clamp (trimStr it.title) 120
    let url := it.url
    let src := if it.source = "" then badge_for url else it.source
    let blurb := trimStr it.blurb
    let time_ := it.time_utc
    let line1 := "• " ++ link title url ++ " — <i>" ++ html_escape src ++ "</i>"
      ++ (if time_ = "" then "" else " · 🕒 " ++ html_escape time_ ++ " UTC")
    let block := [line1]
      ++ (if blurb = "" then [] else ["  <i>Quick read:</i> " ++ html_escape (clamp blurb 180)])
      ++ ["  " ++ link "➡️ Open" url]
    joinSep "\n" block)
  let body := if blocks.isEmpty then "<i>No fresh items.</i>" else joinSep "\n\n" blocks
  let footer := (if footer_x = "" then [] else ["Follow on X: " ++ link "@RedHorizonHub" footer_x])
    ++ [build_hashtags tags]
  joinSep "\n\n" [header, body, joinSep "\n" footer]

/-- Source `formatter.fmt_digest`. -/
def fmt_digest (date_label : String) (items : List DigestItem) (tags : List String)
    (footer_x : String) : String :=
  clamp (fmt_digest_raw date_label items tags footer_x) TG_MAX_TEXT

/-- A caption variant of `formatter.IMAGE_VARIANTS`. -/
structure ImageVariant where
  emoji : String
  label : String
  keys : List String
deriving DecidableEq

/-- Source `formatter.IMAGE_VARIANTS`. -/
def IMAGE_VARIANTS : List ImageVariant :=
  [{ emoji := "📷", label := "Red Horizon Daily Image", keys := [] },
   { emoji := "🚀", label := "Launch Flashback",
     keys := ["launch", "liftoff", "falcon", "starship", "booster", "pad", "cape", "vandenberg"] },
   { emoji := "🌅", label := "Martian Horizon",
     keys := ["mars", "curiosity", "perseverance", "hirise", "viking", "insight", "gale", "jezero"] },
   { emoji := "🌌", label := "Cosmic View",
     keys := ["jwst", "webb", "hubble", "eso", "galaxy", "nebula", "cluster", "exoplanet"] },
   { emoji := "🛠️", label := "Starbase Progress",
     keys := ["starbase", "boca", "mechazilla", "olm", "olp", "raptor", "stack", "static fire", "wdr"] }]

/-- Source `formatter.choose_image_variant`. -/
def choose_image_variant (text : String) : ImageVariant :=
  let t := lowerStr text
  match (IMAGE_VARIANTS.drop 1).find? (fun v => v.keys.any (fun k => strIn k t)) with
  | some v => v
  | none => IMAGE_VARIANTS.headD { emoji := "", label := "", keys := [] }

/-- The string `fmt_image_post` builds before clamping. -/
def fmt_image_post_raw (title url credit : String) (tags : List String) (explainer : String) :
    String :=
  let variant := choose_image_variant (title ++ " " ++ credit ++ " " ++ url)
  let header := variant.emoji ++ " <b>" ++ variant.label ++ "</b>"
  let title_line := html_escape (if title = "" then "Space image" else title)
  let base := ["Space", "Mars", "RedHorizon"]
  let lines := [header, title_line]
    ++ (if credit = "" then [] else ["<i>" ++ html_escape credit ++ "</i>"])
    ++ (if explainer = "" then [] else [html_escape (clamp explainer 180)])
    ++ [build_hashtags (base ++ tags.filter (fun t => !(base.contains t)))]
  joinSep "\n" lines

/-- Source `formatter.fmt_image_post` (defaults: `credit=""`, `tags=None`→`[]`,
`explainer=""`). -/
def fmt_image_post (title url credit : String) (tags : List String) (explainer : String) :
    String :=
  clamp (fmt_image_post_raw title url credit tags explainer) TG_MAX_CAPTION

/-! ### Auxiliary definitions used only by the statements below -/

/-- Number of aggregator (Reddit) items in a list. -/
def countReddit (l : List Article) : Nat := (l.filter isReddit).length

/-- Second definition for the host-normalization claim, following the words of
spec section 4.1 rather than the source: the netloc lower-cased with a leading
`www.` removed.  It is compared against the source-derived `feeds_host` below. -/
def host_per_spec (url : String) : String :=
  let h := lowerStr (netloc url)
  if startsWithL h "www." then strDrop h 4 else h

/-! ### Concrete fixtures for counterexamples and witnesses -/

/-- Reference evaluation time for fixtures: an arbitrary UTC instant. -/
def nowT : Int := 1000000

/-- Fixture: article as produced by `fetch_rss_news` from an earlier feed,
keyword-free title and summary, default source weight (score 2.0 → 20). -/
def cexA1 : Article :=
  { title := "Alpha Beta", link := "https://ex.com/a/post", summary := "",
    published := nowT - 7200, source := "ExSite", source_host := "ex.com",
    image := "", score := 20, is_breaking := false, is_super_breaking := false }

/-- Fixture: near-duplicate of `cexA1` from a later feed position — same
composite key (host `ex.com`, title key `alpha beta`, slug `post`) but a
keyword-bearing summary (score 0.9 + 2.0 → 29) and a newer timestamp. -/
def cexA2 : Article :=
  { title := "alpha beta!", link := "https://ex.com/b/post", summary := "Starship test today",
    published := nowT - 3600, source := "ExSite", source_host := "ex.com",
    image := "", score := 29, is_breaking := false, is_super_breaking := false }

/-- Fixture: an article with link `https://ex.com/x`. -/
def cexB1 : Article :=
  { title := "Moon Base Plan", link := "https://ex.com/x", summary := "",
    published := nowT - 7200, source := "ExSite", source_host := "ex.com",
    image := "", score := 20, is_breaking := false, is_super_breaking := false }

/-- Fixture: the same link as `cexB1` under a different headline, hence a
different composite key. -/
def cexB2 : Article :=
  { title := "Lunar Outpost Idea", link := "https://ex.com/x", summary := "",
    published := nowT - 3600, source := "ExSite", source_host := "ex.com",
    image := "", score := 25, is_breaking := false, is_super_breaking := false }

/-- Fixture: a raw entry whose link carries a `www.` host. -/
def entryWww : Entry :=
  { title := "Cool Space Post", link := "https://www.Reddit.com/r/space/comments/abc",
    summary := "", published_parsed := some (nowT - 3600), updated_parsed := none, image := "" }

/-- Fixture: the article `processEntry` produces from `entryWww`
(source weight of `www.reddit.com` is 1, so score 10). -/
def artWww : Article :=
  { title := "Cool Space Post", link := "https://www.Reddit.com/r/space/comments/abc",
    summary := "", published := nowT - 3600, source := "Reddit Space",
    source_host := "www.reddit.com", image := "", score := 10,
    is_breaking := false, is_super_breaking := false }

/-- Fixture: a raw entry with no parsable timestamp. -/
def entryNoTs : Entry :=
  { title := "No Date", link := "https://ex.com/nd", summary := "",
    published_parsed := none, updated_parsed := none, image := "" }

/-- Fixture: a one-entry feed with a one-hour-old entry. -/
def feedW : Feed :=
  { url := "https://ex.com/feed", feed_title := some "ExSite",
    entries := [{ title := " Hello World ", link := "https://ex.com/a/b", summary := "",
                  published_parsed := some (nowT - 3600), updated_parsed := none, image := "" }] }

/-- Fixture: the article `fetch_rss_news` produces from `feedW`. -/
def artW : Article :=
  { title := "Hello World", link := "https://ex.com/a/b", summary := "",
    published := nowT - 3600, source := "ExSite", source_host := "ex.com",
    image := "", score := 20, is_breaking := false, is_super_breaking := false }

/-- Fixture evaluation time for the digest-fallback scenario. -/
def nowT6 : Int := 2000000

/-- Fixture: feed holding a 1-hour-old entry and a 60-hour-old entry
(60 h is outside the 48-hour fetch window but inside the claimed 72-hour
fallback window). -/
def feedC6 : Feed :=
  { url := "https://ex.com/feed", feed_title := some "ExSite",
    entries :=
      [{ title := "Quiet Cosmos Story", link := "https://ex.com/a/one", summary := "",
         published_parsed := some (nowT6 - 3600), updated_parsed := none, image := "" },
       { title := "Old Cosmos Story", link := "https://ex.com/b/two", summary := "",
         published_parsed := some (nowT6 - 216000), updated_parsed := none, image := "" }] }

/-- Fixture: the article the fetch stage produces from the fresh `feedC6` entry. -/
def artA6 : Article :=
  { title := "Quiet Cosmos Story", link := "https://ex.com/a/one", summary := "",
    published := nowT6 - 3600, source := "ExSite", source_host := "ex.com",
    image := "", score := 20, is_breaking := false, is_super_breaking := false }

/-- Fixture: a fresh pool article for the digest seen-store scenario. -/
def artD : Article :=
  { title := "Calm Orbit Review", link := "https://ex.com/d", summary := "",
    published := nowT - 3600, source := "ExSite", source_host := "ex.com",
    image := "", score := 40, is_breaking := false, is_super_breaking := false }

/-- Fixture: Reddit-hosted pool articles (indices 1-3) for the aggregator cap. -/
def artR (i : Nat) : Article :=
  { title := "Forum Chatter " ++ toString i, link := "https://www.reddit.com/r/space/p" ++ toString i,
    summary := "", published := nowT - Int.ofNat i, source := "Reddit",
    source_host := "www.reddit.com", image := "", score := 50,
    is_breaking := false, is_super_breaking := false }

/-- Fixture: breaking-pool article hosted at `h`, pre-scored 10.0 → 100. -/
def artB (h : String) (i : Nat) : Article :=
  { title := "Big Event Now", link := "https://" ++ h ++ "/b" ++ toString i,
    summary := "", published := nowT - 60, source := h, source_host := h,
    image := "", score := 100, is_breaking := true, is_super_breaking := false }

/-- Fixture: a long-title image post that forces caption truncation. -/
def longTitleW : String := String.mk (List.replicate 1100 'a')

/-! ## Helper lemmas -/

theorem length_mk (l : List Char) : (String.mk l).length = l.length := rfl

theorem toList_mk (l : List Char) : (String.mk l).toList = l := rfl

theorem strlen_append (s t : String) : (s ++ t).length = s.length + t.length := by
  cases s; cases t
  simp [String.length, String.append]

theorem strTake_length (s : String) (n : Nat) : (strTake s n).length = min n s.length := by
  simp [strTake, length_mk, List.length_take]

theorem ellipsis_length : ("…" : String).length = 1 := rfl

/-- Source `clamp` never exceeds the requested positive budget. -/
theorem clamp_length (s : String) (n : Nat) (h : 1 ≤ n) : (clamp s n).length ≤ n := by
  unfold clamp
  split
  · rename_i hgt
    rw [strlen_append, strTake_length, ellipsis_length]
    omega
  · omega

/-- Source `clamp` is the identity when the input fits. -/
theorem clamp_eq_of_le (s : String) (n : Nat) (h : s.length ≤ n) : clamp s n = s := by
  unfold clamp
  split
  · omega
  · rfl

/-- Source `clamp` truncates to `n - 1` characters plus an ellipsis when the
input is too long. -/
theorem clamp_trunc (s : String) (n : Nat) (h : n < s.length) :
    clamp s n = strTake s (n - 1) ++ "…" := by
  unfold clamp
  split
  · rfl
  · omega

theorem mem_insSorted (le : α → α → Bool) (x a : α) (l : List α) :
    a ∈ insSorted le x l ↔ a = x ∨ a ∈ l := by
  induction l with
  | nil => simp [insSorted]
  | cons y ys ih =>
    unfold insSorted
    split
    · simp
    · simp [ih]
      tauto

theorem mem_sortByStable (le : α → α → Bool) (a : α) (l : List α) :
    a ∈ sortByStable le l ↔ a ∈ l := by
  induction l with
  | nil => simp [sortByStable]
  | cons x xs ih => simp [sortByStable, mem_insSorted, ih]

/-- Membership in the key-filtered stream: exactly the elements whose
composite key is new, at their first occurrence. -/
theorem mem_dedupeGo (l : List Article) (ks : List (String × String × String)) (a : Article) :
    a ∈ dedupeGo ks l ↔
      dkey a ∉ ks ∧ ∃ pre post, l = pre ++ a :: post ∧ ∀ b ∈ pre, dkey b ≠ dkey a := by
  induction l generalizing ks with
  | nil =>
    simp only [dedupeGo, List.not_mem_nil, false_iff, not_and]
    intro _ h
    obtain ⟨pre, post, hpp, -⟩ := h
    exact (List.append_ne_nil_of_right_ne_nil pre (List.cons_ne_nil a post)) hpp.symm
  | cons x rest ih =>
    by_cases hx : dkey x ∈ ks
    · rw [dedupeGo, if_pos hx, ih]
      constructor
      · rintro ⟨hnk, pre, post, hpp, hpre⟩
        refine ⟨hnk, x :: pre, post, by simp [hpp], ?_⟩
        intro b hb
        rcases List.mem_cons.mp hb with hbx | hbp
        · subst hbx
          intro hkeq
          exact hnk (hkeq ▸ hx)
        · exact hpre b hbp
      · rintro ⟨hnk, pre, post, hpp, hpre⟩
        cases pre with
        | nil =>
          simp only [List.nil_append, List.cons.injEq] at hpp
          exact absurd (hpp.1 ▸ hx) hnk
        | cons p ps =>
          simp only [List.cons_append, List.cons.injEq] at hpp
          exact ⟨hnk, ps, post, hpp.2, fun b hb => hpre b (List.mem_cons_of_mem p hb)⟩
    · rw [dedupeGo, if_neg hx]
      constructor
      · intro hmem
        rcases List.mem_cons.mp hmem with hax | harec
        · subst hax
          exact ⟨hx, [], rest, rfl, by simp⟩
        · obtain ⟨hnk, pre, post, hpp, hpre⟩ := (ih (dkey x :: ks)).mp harec
          have hne : dkey a ≠ dkey x := fun h => hnk (h ▸ List.mem_cons_self _ _)
          refine ⟨fun h => hnk (List.mem_cons_of_mem _ h), x :: pre, post, by simp [hpp], ?_⟩
          intro b hb
          rcases List.mem_cons.mp hb with hbx | hbp
          · subst hbx
            exact fun h => hne h.symm
          · exact hpre b hbp
      · rintro ⟨hnk, pre, post, hpp, hpre⟩
        cases pre with
        | nil =>
          simp only [List.nil_append, List.cons.injEq] at hpp
          exact List.mem_cons.mpr (Or.inl hpp.1.symm)
        | cons p ps =>
          simp only [List.cons_append, List.cons.injEq] at hpp
          refine List.mem_cons.mpr (Or.inr ((ih (dkey x :: ks)).mpr ⟨?_, ps, post, hpp.2, ?_⟩))
          · intro hmemk
            rcases List.mem_cons.mp hmemk with hkx | hkk
            · exact (hpp.1 ▸ hpre p (List.mem_cons_self p ps)) hkx.symm
            · exact hnk hkk
          · exact fun b hb => hpre b (List.mem_cons_of_mem p hb)

/-- The filtered stream has pairwise-distinct composite keys, none of them
previously seen. -/
theorem dedupeGo_keys (l : List Article) (ks : List (String × String × String)) :
    (dedupeGo ks l).Pairwise (fun a b => dkey a ≠ dkey b) ∧
      ∀ a ∈ dedupeGo ks l, dkey a ∉ ks := by
  induction l generalizing ks with
  | nil => simp [dedupeGo]
  | cons x rest ih =>
    by_cases hx : dkey x ∈ ks
    · rw [dedupeGo, if_pos hx]
      exact ih ks
    · rw [dedupeGo, if_neg hx]
      obtain ⟨ihp, ihk⟩ := ih (dkey x :: ks)
      refine ⟨List.pairwise_cons.mpr ⟨?_, ihp⟩, ?_⟩
      · intro b hb hkeq
        exact ihk b hb (hkeq ▸ List.mem_cons_self _ _)
      · intro a ha
        rcases List.mem_cons.mp ha with hax | harec
        · exact hax ▸ hx
        · exact fun h => ihk a harec (List.mem_cons_of_mem _ h)

/-- Keeping only new keys is the identity on a stream whose keys are already
pairwise distinct and unseen. -/
theorem dedupeGo_eq_self (l : List Article) (ks : List (String × String × String))
    (hp : l.Pairwise (fun a b => dkey a ≠ dkey b)) (hk : ∀ a ∈ l, dkey a ∉ ks) :
    dedupeGo ks l = l := by
  induction l generalizing ks with
  | nil => rfl
  | cons x rest ih =>
    obtain ⟨hhead, htail⟩ := List.pairwise_cons.mp hp
    rw [dedupeGo, if_neg (hk x (List.mem_cons_self x rest))]
    congr 1
    refine ih (dkey x :: ks) htail ?_
    intro a ha hmem
    rcases List.mem_cons.mp hmem with hkx | hkk
    · exact hhead a ha hkx.symm
    · exact hk a (List.mem_cons_of_mem x ha) hkk

/-- Every survivor of the duplicate filter was in the input pool. -/
theorem mem_of_mem_dedupe {l : List Article} {a : Article} (h : a ∈ dedupe l) : a ∈ l := by
  obtain ⟨-, pre, post, hpp, -⟩ := (mem_dedupeGo l [] a).mp h
  subst hpp
  simp

theorem countReddit_append_single (l : List Article) (it : Article) :
    countReddit (l ++ [it]) = countReddit l + (if isReddit it then 1 else 0) := by
  simp [countReddit, List.filter_append]
  split <;> simp_all [List.filter_cons]

/-- Invariant of the digest fill: the Reddit counter bounds the number of
Reddit items taken and never exceeds the cap of 1. -/
theorem foldl_maybe_add_inv (limit : Nat) (l : List Article) (st : List Article × Nat)
    (h1 : countReddit st.1 ≤ st.2) (h2 : st.2 ≤ 1) :
    countReddit (l.foldl (maybe_add limit) st).1 ≤ (l.foldl (maybe_add limit) st).2 ∧
      (l.foldl (maybe_add limit) st).2 ≤ 1 := by
  induction l generalizing st with
  | nil => exact ⟨h1, h2⟩
  | cons it rest ih =>
    rw [List.foldl_cons]
    have hstep : countReddit (maybe_add limit st it).1 ≤ (maybe_add limit st it).2 ∧
        (maybe_add limit st it).2 ≤ 1 := by
      by_cases hfull : st.1.length ≥ limit
      · simpa [maybe_add, hfull] using ⟨h1, h2⟩
      · by_cases hr : isReddit it
        · by_cases hc : st.2 ≥ 1
          · simpa [maybe_add, hfull, hr, hc] using ⟨h1, h2⟩
          · simp only [maybe_add, if_neg hfull, if_pos hr, if_neg hc,
              countReddit_append_single, if_pos hr]
            omega
        · simp only [maybe_add, if_neg hfull, if_neg hr,
            countReddit_append_single, if_neg hr]
          exact ⟨by omega, h2⟩
    exact ih (maybe_add limit st it) hstep.1 hstep.2

/-- Every item the digest fill emits came from the carried state or the
candidate list. -/
theorem mem_foldl_maybe_add (limit : Nat) (l : List Article) (st : List Article × Nat)
    (a : Article) (h : a ∈ (l.foldl (maybe_add limit) st).1) : a ∈ st.1 ∨ a ∈ l := by
  induction l generalizing st with
  | nil => exact Or.inl h
  | cons it rest ih =>
    rw [List.foldl_cons] at h
    rcases ih (maybe_add limit st it) h with hst | hrest
    · unfold maybe_add at hst
      split at hst
      · exact Or.inl hst
      · split at hst
        · split at hst
          · exact Or.inl hst
          · rcases List.mem_append.mp hst with h1 | h2
            · exact Or.inl h1
            · exact Or.inr (List.mem_cons.mpr (Or.inl (List.mem_singleton.mp h2)))
        · rcases List.mem_append.mp hst with h1 | h2
          · exact Or.inl h1
          · exact Or.inr (List.mem_cons.mpr (Or.inl (List.mem_singleton.mp h2)))
    · exact Or.inr (List.mem_cons_of_mem it hrest)

/-- Every selected digest item came from the fresh pool handed to the fill. -/
theorem mem_digestFrom {fresh : List Article} {a : Article} (h : a ∈ digestFrom fresh) :
    a ∈ fresh := by
  unfold digestFrom buildFinal at h
  rcases mem_foldl_maybe_add 5 _ _ a h with hst | hother
  · rcases mem_foldl_maybe_add 3 _ _ a hst with hnil | hsp
    · simp at hnil
    · exact List.mem_of_mem_filter ((mem_sortByStable _ a _).mp hsp)
  · exact List.mem_of_mem_filter ((mem_sortByStable _ a _).mp hother)

/-- Specification of the breaking-news posting loop: for some batch `Δ` of
newly published articles, the counter, the seen-store and the emitted list are
extended exactly by `Δ`; the batch respects the cap of two posts and each of
its members was unseen and had a successful publisher call. -/
theorem breakingLoop_spec (pubImg pubMsg : Article → Bool) (momentum : Int) :
    ∀ (l : List ScoredArticle) (posted : Nat) (seen : List String) (out : List Article),
    ∃ Δ : List Article,
      breakingLoop pubImg pubMsg momentum l posted seen out =
        (posted + Δ.length, seen ++ Δ.map (fun a => a.link), out ++ Δ) ∧
      posted + Δ.length ≤ max posted 2 ∧
      (∀ a ∈ Δ, a.link ∉ seen ∧ ((a.image ≠ "" ∧ pubImg a = true) ∨ pubMsg a = true)) := by
  intro l
  induction l with
  | nil =>
    intro posted seen out
    exact ⟨[], by simp [breakingLoop], by simp only [List.length_nil, Nat.add_zero]; omega, by simp⟩
  | cons sa rest ih =>
    intro posted seen out
    by_cases hquota : posted ≥ 2
    · exact ⟨[], by simp [breakingLoop, hquota], by simp only [List.length_nil, Nat.add_zero]; omega,
        by simp⟩
    · by_cases hseen : sa.art.link ∈ seen
      · obtain ⟨Δ, heq, hbound, hmem⟩ := ih posted seen out
        exact ⟨Δ, by rw [breakingLoop, if_neg hquota, if_pos hseen]; exact heq, hbound, hmem⟩
      · by_cases hscore : sa.score < 80
        · obtain ⟨Δ, heq, hbound, hmem⟩ := ih posted seen out
          refine ⟨Δ, ?_, hbound, hmem⟩
          rw [breakingLoop, if_neg hquota, if_neg hseen, if_pos hscore]
          exact heq
        · by_cases hgate : (!(sa.consensus ≥ 2 || (sa.authority ≥ 1 && momentum ≥ 2))) = true
          · obtain ⟨Δ, heq, hbound, hmem⟩ := ih posted seen out
            refine ⟨Δ, ?_, hbound, hmem⟩
            rw [breakingLoop, if_neg hquota, if_neg hseen, if_neg hscore, if_pos hgate]
            exact heq
          · by_cases hok : ((sa.art.image ≠ "" && pubImg sa.art) || pubMsg sa.art) = true
            · obtain ⟨Δ, heq, hbound, hmem⟩ :=
                ih (posted + 1) (insertSeen seen sa.art.link) (out ++ [sa.art])
              refine ⟨sa.art :: Δ, ?_, ?_, ?_⟩
              · rw [breakingLoop, if_neg hquota, if_neg hseen, if_neg hscore, if_neg hgate,
                  if_pos hok, heq]
                have hins : insertSeen seen sa.art.link = seen ++ [sa.art.link] := by
                  simp [insertSeen, hseen]
                rw [hins]
                simp [List.append_assoc]
                omega
              · simp only [List.length_cons]
                omega
              · intro a ha
                rcases List.mem_cons.mp ha with hax | haΔ
                · subst hax
                  refine ⟨hseen, ?_⟩
                  have hok2 := hok
                  simp only [Bool.or_eq_true, Bool.and_eq_true] at hok2
                  rcases hok2 with ⟨himg, hpub⟩ | hmsg
                  · exact Or.inl ⟨by simpa using himg, hpub⟩
                  · exact Or.inr hmsg
                · obtain ⟨hnotin, hpub⟩ := hmem a haΔ
                  have hins : insertSeen seen sa.art.link = seen ++ [sa.art.link] := by
                    simp [insertSeen, hseen]
                  rw [hins] at hnotin
                  exact ⟨fun h => hnotin (List.mem_append.mpr (Or.inl h)), hpub⟩
            · obtain ⟨Δ, heq, hbound, hmem⟩ := ih posted seen out
              refine ⟨Δ, ?_, hbound, hmem⟩
              rw [breakingLoop, if_neg hquota, if_neg hseen, if_neg hscore, if_neg hgate,
                if_neg hok]
              exact heq

/-- An entry admitted by the fetch loop has its parsed time as `published`,
within the 48-hour window. -/
theorem processEntry_time {now : Int} {tf : Bool} {st fu : String} {e : Entry} {a : Article}
    (h : processEntry now tf st fu e = some a) :
    entry_time e.published_parsed e.updated_parsed = some a.published ∧
      now - a.published ≤ 48 * 3600 := by
  unfold processEntry at h
  split at h
  · exact absurd h (by simp)
  · rename_i t hte
    split at h
    · exact absurd h (by simp)
    · rename_i hold
      have hrec := Option.some.inj h
      subst hrec
      refine ⟨hte, ?_⟩
      show now - t ≤ 48 * 3600
      omega

/-- Entries with no parsable timestamp are rejected by the fetch loop. -/
theorem processEntry_none_of_no_time (now : Int) (tf : Bool) (st fu : String) (e : Entry)
    (hp : e.published_parsed = none) (hu : e.updated_parsed = none) :
    processEntry now tf st fu e = none := by
  simp [processEntry, entry_time, hp, hu, Option.orElse]

/-- The `source_host` formula of the fetch loop: link netloc lower-cased, with
the feed URL as fallback for host-less links. -/
theorem processEntry_source_host {now : Int} {tf : Bool} {st fu : String} {e : Entry}
    {a : Article} (h : processEntry now tf st fu e = some a) :
    a.source_host = if feeds_host (trimStr e.link) ≠ "" then feeds_host (trimStr e.link)
      else feeds_host fu := by
  unfold processEntry at h
  split at h
  · exact absurd h (by simp)
  · rename_i t hte
    split at h
    · exact absurd h (by simp)
    · have hrec := Option.some.inj h
      subst hrec
      rfl

/-- Provenance of fetched articles: each one is produced by `processEntry`
from some entry of some input feed. -/
theorem mem_fetch_rss_news {now : Int} {tf : Bool} {feeds : List Feed} {a : Article}
    (h : a ∈ fetch_rss_news now tf feeds) :
    ∃ f ∈ feeds, ∃ e ∈ f.entries,
      processEntry now tf (f.feed_title.getD (feeds_host f.url)) f.url e = some a := by
  unfold fetch_rss_news at h
  have h1 : a ∈ dedupe ((feeds.map (fun f =>
      (f.entries.take 50).filterMap
        (processEntry now tf (f.feed_title.getD (feeds_host f.url)) f.url))).flatten) :=
    (mem_sortByStable _ a _).mp h
  have h2 := mem_of_mem_dedupe h1
  obtain ⟨l, hl, hal⟩ := List.mem_flatten.mp h2
  obtain ⟨f, hf, rfl⟩ := List.mem_map.mp hl
  obtain ⟨e, he, hpe⟩ := List.mem_filterMap.mp hal
  exact ⟨f, hf, e, List.mem_of_mem_take he, hpe⟩

/-- Provenance of fetched image items: each one is produced by
`processImgEntry` from some entry of some input image feed. -/
theorem mem_fetch_images {now : Int} {feeds : List ImgFeed} {im : ImageItem}
    (h : im ∈ fetch_images now feeds) :
    ∃ f ∈ feeds, ∃ e ∈ f.entries, processImgEntry now f.url e = some im := by
  unfold fetch_images at h
  have h2 := (mem_sortByStable _ im _).mp h
  obtain ⟨l, hl, hal⟩ := List.mem_flatten.mp h2
  obtain ⟨f, hf, rfl⟩ := List.mem_map.mp hl
  obtain ⟨e, he, hpe⟩ := List.mem_filterMap.mp hal
  exact ⟨f, hf, e, List.mem_of_mem_take he, hpe⟩

/-- An accepted image item has a parsable entry time. -/
theorem processImgEntry_time {now : Int} {fu : String} {e : ImgEntry} {im : ImageItem}
    (h : processImgEntry now fu e = some im) :
    entry_time e.published_parsed e.updated_parsed = some im.published := by
  unfold processImgEntry at h
  dsimp only at h
  repeat' split at h
  all_goals
    first
      | (have hrec := Option.some.inj h; subst hrec; assumption)
      | exact absurd h (by simp)

/-- End-to-end behaviour of the breaking-news run: the final seen-store is the
initial one extended by exactly the links of the emitted articles; at most two
are emitted; each emitted article was unseen and successfully published. -/
theorem run_breaking_news_spec (now : Int) (pool : List Article) (posts : List NitterPost)
    (seen : List String) (pubImg pubMsg : Article → Bool) :
    (run_breaking_news now pool posts seen pubImg pubMsg).2.1 =
      seen ++ ((run_breaking_news now pool posts seen pubImg pubMsg).2.2).map (fun a => a.link) ∧
    ((run_breaking_news now pool posts seen pubImg pubMsg).2.2).length ≤ 2 ∧
    ∀ a ∈ (run_breaking_news now pool posts seen pubImg pubMsg).2.2,
      a.link ∉ seen ∧ ((a.image ≠ "" ∧ pubImg a = true) ∨ pubMsg a = true) := by
  unfold run_breaking_news
  by_cases hempty : ((pool.take 120).filter (fun a => a.is_breaking)).isEmpty
  · simp [hempty]
  · simp only [hempty, Bool.false_eq_true, if_false]
    obtain ⟨Δ, heq, hbound, hmem⟩ :=
      breakingLoop_spec pubImg pubMsg
        (momentumOf posts)
        (sortByStable scoredLe (((pool.take 120).filter (fun a => a.is_breaking)).map (fun a =>
          { score := a.score + 20 * Int.ofNat (consensusOf now
                ((pool.take 120).filter (fun a => a.is_breaking)) (norm_title a.title))
              + 10 * authorityOf a.source_host + 10 * momentumOf posts,
            consensus := consensusOf now ((pool.take 120).filter (fun a => a.is_breaking))
              (norm_title a.title),
            authority := authorityOf a.source_host, art := a : ScoredArticle })))
        0 seen []
    rw [heq]
    simp only [List.nil_append]
    exact ⟨trivial, by omega, hmem⟩

/-- The digest fill never takes more than one aggregator item. -/
theorem countReddit_digestFrom (fresh : List Article) : countReddit (digestFrom fresh) ≤ 1 := by
  unfold digestFrom buildFinal
  dsimp only
  have h0 : countReddit ([] : List Article) ≤ (([] : List Article), 0).2 := by
    simp [countReddit]
  have h1 := foldl_maybe_add_inv 3 (sortByStable articleLe (fresh.filter spacexy))
    (([], 0)) h0 (by omega)
  have h2 := foldl_maybe_add_inv 5 (sortByStable articleLe (fresh.filter (fun a => !spacexy a)))
    _ h1.1 h1.2
  omega

/-! ## Claims -/

set_option maxRecDepth 4000000

/-- C1 (counterexample): the deduplicator of `fetch_rss_news` does NOT keep
the group member with the highest `relevance_score` (nor the newest): it keeps
the first-encountered member.  `cexA1` and `cexA2` share the composite key
`("ex.com", "alpha beta", "post")`, `cexA2` scores higher (29 over 20) and is
newer, yet the surviving representative is `cexA1`. -/
theorem C1_cex :
    dedupe [cexA1, cexA2] = [cexA1] ∧ dkey cexA1 = dkey cexA2 ∧
      cexA1.score < cexA2.score ∧ cexA1.published < cexA2.published := by
  decide

/-- C1 (amended): for every input pool, the deduplicator collapses each group
of near-duplicate items (items sharing the composite key of source host,
normalized title, and URL slug) to the group member encountered first in feed
order, regardless of `relevance_score` or `published_at`: an article survives
`dedupe` exactly when no earlier article of the pool carries its composite
key. -/
theorem C1_dedupe_keeps_first_occurrence (X : List Article) (a : Article) :
    a ∈ dedupe X ↔ ∃ pre post, X = pre ++ a :: post ∧ ∀ b ∈ pre, dkey b ≠ dkey a := by
  simpa using mem_dedupeGo X [] a

/-- C1 (witness): the characterization instantiated at the two-article pool. -/
theorem C1_witness : cexA1 ∈ dedupe [cexA1, cexA2] :=
  (C1_dedupe_keeps_first_occurrence [cexA1, cexA2] cexA1).mpr ⟨[], [cexA2], rfl, by simp⟩

/-- C2 (counterexample): in the daily digest the seen-store write is NOT
conditional on a successful publish.  With every publisher call failing
(`sendOk := false`), the selected link is still written to the seen-store. -/
theorem C2_cex :
    run_daily_digest nowT [artD] [] false = ("ok", ["https://ex.com/d"]) := by
  decide

/-- C2 (amended): the breaking-news and daily-image tasks write the
identifier of an item (link, image URL respectively) to the seen-store only after that
item was successfully published, and leave the store unchanged for items
whose publish failed; the daily-digest task however writes the link of every selected
item unconditionally, whatever the publisher outcomes. -/
theorem C2_seen_store_write_discipline :
    (∀ (now : Int) (pool : List Article) (posts : List NitterPost) (seen : List String)
        (pubImg pubMsg : Article → Bool),
      (run_breaking_news now pool posts seen pubImg pubMsg).2.1 =
        seen ++ ((run_breaking_news now pool posts seen pubImg pubMsg).2.2).map (fun a => a.link) ∧
      ∀ a ∈ (run_breaking_news now pool posts seen pubImg pubMsg).2.2,
        (a.image ≠ "" ∧ pubImg a = true) ∨ pubMsg a = true) ∧
    (∀ (now : Int) (pool : List Article) (seen : List String) (sendOk : Bool),
      (run_daily_digest now pool seen sendOk).2 =
        (digestSelection now pool).foldl (fun s a => insertSeen s a.link) seen) ∧
    (∀ (imgs : List ImageItem) (seen cacheUrls : List String) (lastHost : String)
        (pubImg : ImageItem → Bool),
      (run_daily_image imgs seen cacheUrls lastHost pubImg).2.1 =
        match pickImage imgs seen cacheUrls lastHost with
        | none => seen
        | some picked => if pubImg picked then insertSeen seen picked.url else seen) := by
  refine ⟨?_, ?_, ?_⟩
  · intro now pool posts seen pubImg pubMsg
    obtain ⟨hseen, -, hmem⟩ := run_breaking_news_spec now pool posts seen pubImg pubMsg
    exact ⟨hseen, fun a ha => (hmem a ha).2⟩
  · intro now pool seen sendOk
    by_cases hfin : (digestSelection now pool).isEmpty
    · rw [List.isEmpty_iff] at hfin
      simp [run_daily_digest, hfin]
    · simp [run_daily_digest, hfin]
  · intro imgs seen cacheUrls lastHost pubImg
    cases hpick : pickImage imgs seen cacheUrls lastHost with
    | none => simp [run_daily_image, hpick]
    | some picked =>
      by_cases hpub : pubImg picked = true
      · simp [run_daily_image, hpick, hpub]
      · simp [run_daily_image, hpick, hpub]

/-- C2 (witness): the three clauses instantiated at concrete runs. -/
theorem C2_witness :
    (run_breaking_news nowT [artB "nasa.gov" 1] [] ["https://old.example/x"]
        (fun _ => true) (fun _ => true)).2.1 =
      ["https://old.example/x"] ++
        ((run_breaking_news nowT [artB "nasa.gov" 1] [] ["https://old.example/x"]
          (fun _ => true) (fun _ => true)).2.2).map (fun a => a.link) ∧
    (run_daily_digest nowT [artD] [] true).2 =
      (digestSelection nowT [artD]).foldl (fun s a => insertSeen s a.link) [] ∧
    (run_daily_image [] [] [] "" (fun _ => true)).2.1 =
      match pickImage [] [] [] "" with
      | none => ([] : List String)
      | some picked =>
        if (fun _ => true : ImageItem → Bool) picked then insertSeen [] picked.url else [] := by
  exact ⟨(C2_seen_store_write_discipline.1 nowT [artB "nasa.gov" 1] [] ["https://old.example/x"]
      (fun _ => true) (fun _ => true)).1,
    C2_seen_store_write_discipline.2.1 nowT [artD] [] true,
    C2_seen_store_write_discipline.2.2 [] [] [] "" (fun _ => true)⟩

/-- C3 (counterexample): two items with identical `link` but different
normalized titles have different composite keys and are BOTH kept: there is
no secondary exact-link dedupe in `fetch_rss_news`. -/
theorem C3_cex :
    dedupe [cexB1, cexB2] = [cexB1, cexB2] ∧ cexB1.link = cexB2.link ∧ cexB1 ≠ cexB2 := by
  decide

/-- C3 (amended): deduplication collapses two items exactly when their
composite `(source_host, normalized title, slug)` keys coincide: the output
pool never holds two items with equal composite keys, but items sharing a
`link` under different composite keys (for example, different normalized
titles) all survive, since link equality is never checked on its own. -/
theorem C3_no_secondary_link_dedupe (X : List Article) :
    (dedupe X).Pairwise (fun a b => dkey a ≠ dkey b) :=
  (dedupeGo_keys X []).1

/-- C4: the digest selection never holds more than one aggregator
(`reddit.com`) item, and once the counter has reached the cap, `_maybe_add`
returns the state unchanged on aggregator items — they are skipped entirely,
not merely ranked lower. -/
theorem C4_digest_aggregator_cap :
    (∀ (now : Int) (pool : List Article), countReddit (digestSelection now pool) ≤ 1) ∧
    (∀ (limit : Nat) (st : List Article × Nat) (it : Article),
      1 ≤ st.2 → isReddit it = true → maybe_add limit st it = st) := by
  constructor
  · intro now pool
    unfold digestSelection
    dsimp only
    split
    · exact countReddit_digestFrom _
    · exact countReddit_digestFrom _
  · intro limit st it hcap hred
    unfold maybe_add
    rw [if_pos hred, if_pos hcap]
    split <;> rfl

/-- C4 (witness): the cap holds on a pool of three aggregator items, and a
capped state absorbs a further aggregator item unchanged. -/
theorem C4_witness :
    countReddit (digestSelection nowT [artR 1, artR 2, artR 3]) ≤ 1 ∧
      maybe_add 5 ([artR 1], 1) (artR 2) = ([artR 1], 1) :=
  ⟨C4_digest_aggregator_cap.1 nowT [artR 1, artR 2, artR 3],
   C4_digest_aggregator_cap.2 5 ([artR 1], 1) (artR 2) (by decide) (by decide)⟩

/-- C5: for every pool, Nitter signal list, seen-store state and publisher
behaviour, the breaking-news task successfully posts at most 2 items, and
never posts an item whose link was already in the seen-store. -/
theorem C5_breaking_cap_and_seen (now : Int) (pool : List Article) (posts : List NitterPost)
    (seen : List String) (pubImg pubMsg : Article → Bool) :
    ((run_breaking_news now pool posts seen pubImg pubMsg).2.2).length ≤ 2 ∧
    ∀ a ∈ (run_breaking_news now pool posts seen pubImg pubMsg).2.2, a.link ∉ seen := by
  obtain ⟨-, hlen, hmem⟩ := run_breaking_news_spec now pool posts seen pubImg pubMsg
  exact ⟨hlen, fun a ha => (hmem a ha).1⟩

/-- C5 (witness): a three-candidate pool (all qualify: consensus 3, authority,
score 18.0 ≥ 8.0) posts exactly two items, none of them previously seen. -/
theorem C5_witness :
    ((run_breaking_news nowT [artB "nasa.gov" 1, artB "spacenews.com" 2, artB "esa.int" 3] []
        ["https://old.example/x"] (fun _ => true) (fun _ => true)).2.2).length ≤ 2 ∧
    (artB "nasa.gov" 1).link ∉ (["https://old.example/x"] : List String) := by
  have h := C5_breaking_cap_and_seen nowT
    [artB "nasa.gov" 1, artB "spacenews.com" 2, artB "esa.int" 3] []
    ["https://old.example/x"] (fun _ => true) (fun _ => true)
  exact ⟨h.1, h.2 (artB "nasa.gov" 1) (by decide)⟩

/-- C6 (counterexample): the claimed "items up to 72 hours old are considered
by the fallback" fails: `feedC6` holds a 60-hour-old entry, which is inside
the 72-hour fallback window (60 h ≤ 72 h) but outside the 48-hour fetch
window, so the fallback selection (a single fresh article, which also shows
the fallback fired, since 1 < 3) cannot contain it. -/
theorem C6_cex :
    digestSelection nowT6 (fetch_rss_news nowT6 false [feedC6]) = [artA6] ∧
    artA6.link = "https://ex.com/a/one" ∧
    nowT6 - (nowT6 - 216000) ≤ 72 * 3600 ∧
    48 * 3600 < nowT6 - (nowT6 - 216000) := by
  decide

/-- C6 (amended): the daily digest rebuilds the selection with the 72-hour
window exactly when the 24-hour selection has fewer than 3 items, and at most
once per invocation; but because `fetch_rss_news` already drops entries older
than 48 hours, every selected item — fallback or not — is at most 48 hours
old, so the fallback effectively reaches back 48 hours, not 72. -/
theorem C6_digest_fallback (now : Int) (tf : Bool) (feeds : List Feed) :
    ((digestFrom (within_hours now ((fetch_rss_news now tf feeds).take 150) 24)).length < 3 →
      digestSelection now (fetch_rss_news now tf feeds) =
        digestFrom (within_hours now ((fetch_rss_news now tf feeds).take 150) 72)) ∧
    (3 ≤ (digestFrom (within_hours now ((fetch_rss_news now tf feeds).take 150) 24)).length →
      digestSelection now (fetch_rss_news now tf feeds) =
        digestFrom (within_hours now ((fetch_rss_news now tf feeds).take 150) 24)) ∧
    ∀ a ∈ digestSelection now (fetch_rss_news now tf feeds),
      now - a.published ≤ 48 * 3600 := by
  refine ⟨?_, ?_, ?_⟩
  · intro h
    unfold digestSelection
    dsimp only
    rw [if_pos h]
  · intro h
    unfold digestSelection
    dsimp only
    rw [if_neg (by omega)]
  · intro a ha
    have hpool : a ∈ fetch_rss_news now tf feeds := by
      unfold digestSelection at ha
      dsimp only at ha
      split at ha <;>
        exact List.mem_of_mem_take (List.mem_of_mem_filter (mem_digestFrom ha))
    obtain ⟨f, -, e, -, hpe⟩ := mem_fetch_rss_news hpool
    exact (processEntry_time hpe).2

/-- C6 (witness): on `feedC6` the 24-hour selection is short, so the result
equals the 72-hour rebuild, and the surviving article is within 48 hours. -/
theorem C6_witness :
    digestSelection nowT6 (fetch_rss_news nowT6 false [feedC6]) =
      digestFrom (within_hours nowT6 ((fetch_rss_news nowT6 false [feedC6]).take 150) 72) ∧
    nowT6 - artA6.published ≤ 48 * 3600 := by
  have h := C6_digest_fallback nowT6 false [feedC6]
  exact ⟨h.1 (by decide), h.2.2 artA6 (by decide)⟩

/-- C7: an entry with no parsable `published` or `updated` timestamp is
rejected by the fetch loop, so it can never be classified breaking or
super-breaking and never reaches the candidate pool of any task: every article in
the news pool and every item in the image pool stems, via the per-entry
processing, from an entry whose `entry_time` parsed. -/
theorem C7_no_timestamp_is_excluded :
    (∀ (now : Int) (tf : Bool) (st fu : String) (e : Entry),
        e.published_parsed = none → e.updated_parsed = none →
        processEntry now tf st fu e = none) ∧
    (∀ (now : Int) (tf : Bool) (feeds : List Feed) (a : Article),
        a ∈ fetch_rss_news now tf feeds →
        ∃ f ∈ feeds, ∃ e ∈ f.entries,
          (entry_time e.published_parsed e.updated_parsed).isSome ∧
          processEntry now tf (f.feed_title.getD (feeds_host f.url)) f.url e = some a) ∧
    (∀ (now : Int) (ifeeds : List ImgFeed) (im : ImageItem),
        im ∈ fetch_images now ifeeds →
        ∃ f ∈ ifeeds, ∃ e ∈ f.entries,
          (entry_time e.published_parsed e.updated_parsed).isSome ∧
          processImgEntry now f.url e = some im) := by
  refine ⟨processEntry_none_of_no_time, ?_, ?_⟩
  · intro now tf feeds a ha
    obtain ⟨f, hf, e, he, hpe⟩ := mem_fetch_rss_news ha
    refine ⟨f, hf, e, he, ?_, hpe⟩
    rw [(processEntry_time hpe).1]
    rfl
  · intro now ifeeds im hi
    obtain ⟨f, hf, e, he, hpe⟩ := mem_fetch_images hi
    refine ⟨f, hf, e, he, ?_, hpe⟩
    rw [processImgEntry_time hpe]
    rfl

/-- C7 (witness): the timestamp-less `entryNoTs` is rejected, and the
article fetched from `feedW` traces back to a timestamped entry. -/
theorem C7_witness :
    processEntry nowT false "ExSite" "https://ex.com/feed" entryNoTs = none ∧
    ∃ f ∈ [feedW], ∃ e ∈ f.entries,
      (entry_time e.published_parsed e.updated_parsed).isSome ∧
      processEntry nowT false (f.feed_title.getD (feeds_host f.url)) f.url e = some artW :=
  ⟨C7_no_timestamp_is_excluded.1 nowT false "ExSite" "https://ex.com/feed" entryNoTs rfl rfl,
   C7_no_timestamp_is_excluded.2.1 nowT false [feedW] artW (by decide)⟩

/-- C8: deduplication is idempotent — the deduplicated pool has pairwise
distinct composite keys, so a second pass keeps everything. -/
theorem C8_dedupe_idempotent (X : List Article) : dedupe (dedupe X) = dedupe X :=
  dedupeGo_eq_self _ [] (dedupeGo_keys X []).1 (by simp)

/-- C9 (counterexample): `source_host` does NOT strip a leading `www.`:
`feeds._host` is the bare lower-cased netloc, and `SOURCE_WEIGHTS` even keys
`www.reddit.com` separately.  The spec-worded normalization `host_per_spec`
disagrees on any `www.` link. -/
theorem C9_cex :
    processEntry nowT false "Reddit Space" "https://www.reddit.com/r/space.rss" entryWww =
      some artWww ∧
    artWww.source_host = "www.reddit.com" ∧
    host_per_spec entryWww.link = "reddit.com" ∧
    artWww.source_host ≠ host_per_spec entryWww.link := by
  decide

/-- C9 (amended): for every normalized item, `source_host` equals the
netloc of the stripped link, lower-cased, with `www.` retained, falling back to the
netloc of the parent feed URL (also lower-cased, `www.` retained) when the link
has no host. -/
theorem C9_source_host_formula (now : Int) (tf : Bool) (st fu : String) (e : Entry)
    (a : Article) (h : processEntry now tf st fu e = some a) :
    a.source_host = if feeds_host (trimStr e.link) ≠ "" then feeds_host (trimStr e.link)
      else feeds_host fu :=
  processEntry_source_host h

/-- C9 (witness): the formula instantiated at the `www.` fixture. -/
theorem C9_witness :
    artWww.source_host = if feeds_host (trimStr entryWww.link) ≠ ""
      then feeds_host (trimStr entryWww.link)
      else feeds_host "https://www.reddit.com/r/space.rss" :=
  C9_source_host_formula nowT false "Reddit Space" "https://www.reddit.com/r/space.rss"
    entryWww artWww (by decide)

/-- C10 (counterexample): a formatted message can end in an ellipsis without
any truncation having occurred — here the raw breaking message is 64
characters (far below 3900) and is returned unchanged, yet it ends in `…`
because the final hashtag does — so "a trailing ellipsis exactly when
truncation occurred" fails in the only-if direction. -/
theorem C10_cex :
    fmt_breaking "T" "u" "" ["Mars…"] "" =
      "🚨 <b>BREAKING</b> — T\n\n<a href=\"u\">Read more</a>\n\nsource\n\n#Mars" ++ "…" ∧
    (fmt_breaking_raw "T" "u" "" ["Mars…"] "").length ≤ 3900 := by
  decide

/-- C10 (amended): every formatted message is clamped to its transport limit —
`fmt_breaking` and `fmt_digest` to 3900 characters and `fmt_image_post` to
1024 — and whenever the raw message exceeded the limit the result is the
first limit−1 characters followed by a trailing ellipsis (a result may also
end in an ellipsis when no truncation occurred, if its content does). -/
theorem C10_formatter_clamped (title url summary : String) (tags : List String)
    (source_hint date_label : String) (items : List DigestItem) (dtags : List String)
    (footer_x ititle iurl icredit : String) (itags : List String) (iexplainer : String) :
    (fmt_breaking title url summary tags source_hint).length ≤ 3900 ∧
    ((fmt_breaking_raw title url summary tags source_hint).length > 3900 →
      fmt_breaking title url summary tags source_hint =
        strTake (fmt_breaking_raw title url summary tags source_hint) 3899 ++ "…") ∧
    (fmt_digest date_label items dtags footer_x).length ≤ 3900 ∧
    ((fmt_digest_raw date_label items dtags footer_x).length > 3900 →
      fmt_digest date_label items dtags footer_x =
        strTake (fmt_digest_raw date_label items dtags footer_x) 3899 ++ "…") ∧
    (fmt_image_post ititle iurl icredit itags iexplainer).length ≤ 1024 ∧
    ((fmt_image_post_raw ititle iurl icredit itags iexplainer).length > 1024 →
      fmt_image_post ititle iurl icredit itags iexplainer =
        strTake (fmt_image_post_raw ititle iurl icredit itags iexplainer) 1023 ++ "…") :=
  ⟨clamp_length _ _ (by decide),
   fun h => clamp_trunc _ _ h,
   clamp_length _ _ (by decide),
   fun h => clamp_trunc _ _ h,
   clamp_length _ _ (by decide),
   fun h => clamp_trunc _ _ h⟩

/-- C10 (witness): a 1100-character image title forces caption truncation to
exactly 1024 characters with a trailing ellipsis. -/
theorem C10_witness :
    (fmt_image_post longTitleW "" "" [] "").length ≤ 1024 ∧
    fmt_image_post longTitleW "" "" [] "" =
      strTake (fmt_image_post_raw longTitleW "" "" [] "") 1023 ++ "…" := by
  have h := C10_formatter_clamped "" "" "" [] "" "" [] [] "" longTitleW "" "" [] ""
  exact ⟨h.2.2.2.2.1, h.2.2.2.2.2 (by decide)⟩

end RedHorizon
